import Mathlib

/-
  Verification development for the tags repository (Rust audio-metadata
  parser).  The Rust sources under src/ are shallowly embedded below:
  byte buffers become List Nat (each entry a value < 256), Rust String
  becomes List Char (one entry per Rust char), fallible functions return
  MRes, and process aborts (panics, unwraps of None, arithmetic overflow
  in debug builds, out-of-range slice indexing) are modelled by
  MRes.panic.
-/

/-- Result of running a piece of Rust code: a value, an io::Error style
error carrying the message passed at the error construction site, or a
process abort (panic). -/
inductive MRes (α : Type) : Type
  | ok (a : α) : MRes α
  | err (msg : String) : MRes α
  | panic : MRes α
deriving DecidableEq, Repr

/-- Big-endian u32 read (byteorder::BigEndian::read_u32): uses the first
four bytes of the buffer.  Every call site in the sources passes a buffer
of at least 4 bytes, so the getD defaults are never consulted there. -/
def read_u32 (l : List Nat) : Nat :=
  l.getD 0 0 * 2 ^ 24 + l.getD 1 0 * 2 ^ 16 + l.getD 2 0 * 2 ^ 8 + l.getD 3 0

/-- Big-endian u16 read (byteorder::BigEndian::read_u16) of the first two
bytes. -/
def read_u16 (l : List Nat) : Nat :=
  l.getD 0 0 * 2 ^ 8 + l.getD 1 0

/-- Sub-slice buf[a..b] of a byte buffer, as used after a bounds check:
keeps positions a, a+1, ..., b-1. -/
def seg (l : List Nat) (a b : Nat) : List Nat :=
  (l.take b).drop a

/-- Rust char::is_alphanumeric restricted to the range U+0000..U+00FF,
which is the only range reachable here since the sources only apply it to
(u8 as char) values: ASCII digits and letters plus the Latin-1 letters
(micro sign, ordinal indicators, the accented letter blocks without the
multiplication and division signs) and the Latin-1 numeric characters
(superscript one, two, three and the vulgar fractions). -/
def is_alphanumeric_latin1 (b : Nat) : Bool :=
  (0x30 ≤ b && b ≤ 0x39) || (0x41 ≤ b && b ≤ 0x5a) || (0x61 ≤ b && b ≤ 0x7a) ||
  b == 0xaa || b == 0xb5 || b == 0xba ||
  b == 0xb2 || b == 0xb3 || b == 0xb9 ||
  b == 0xbc || b == 0xbd || b == 0xbe ||
  (0xc0 ≤ b && b ≤ 0xd6) || (0xd8 ≤ b && b ≤ 0xf6) || (0xf8 ≤ b && b ≤ 0xff)

/-- Index (from the front) of the last byte satisfying the predicate,
embedding Iterator::rposition as used in from_ascii. -/
def rpos_alnum : List Nat → Option Nat
  | [] => none
  | b :: rest =>
    match rpos_alnum rest with
    | some i => some (i + 1)
    | none => if is_alphanumeric_latin1 b then some 0 else none

/-- Embeds utils::from_ascii (src/formats/utils.rs lines 3-17), which is
also duplicated as the private id3::from_ascii in mpeg/tag.rs: truncate
the buffer just after the last alphanumeric byte (keep everything when no
byte is alphanumeric) and turn each remaining byte into the char with
that code point. -/
def utils.from_ascii (buf : List Nat) : List Char :=
  let idx :=
    match rpos_alnum buf with
    | some i => i + 1
    | none => buf.length
  (buf.take idx).map (fun b => Char.ofNat b)

/-- Embeds the private from_ascii of m4a.rs (lines 90-99): every byte is
turned into the char with that code point, with no trimming. -/
def m4a.from_ascii (buf : List Nat) : List Char :=
  buf.map (fun b => Char.ofNat b)

/-
  Module synch of mpeg/tag.rs (lines 260-317).
-/

/-- Loop body of synch::int_from_buf: iterates the indices 0..(len+1) in
order, breaking at the first byte with the high bit set; returns the
accumulated sum and the not_sync_safe flag. -/
def synch.fold (buf : List Nat) (len : Nat) : List Nat → Nat → Nat × Bool
  | [], sum => (sum, false)
  | i :: rest, sum =>
    let byte := buf.getD i 0
    if byte &&& 0x80 ≠ 0 then (sum, true)
    else synch.fold buf len rest (sum ||| ((byte &&& 0x7f) <<< ((len - i) * 7)))

/-- Embeds synch::int_from_buf (mpeg/tag.rs lines 265-293).  The Rust
computation min(buf.len() - 1, 3) uses usize subtraction, which aborts on
an empty buffer in debug builds; truncated Nat subtraction is used here,
and every call site in the sources passes a 4-byte slice. -/
def synch.int_from_buf (buf : List Nat) : Nat :=
  let len := min (buf.length - 1) 3
  let r := synch.fold buf len (List.range (len + 1)) 0
  if r.2 then
    if buf.length ≥ 4 then read_u32 buf
    else read_u32 (buf ++ List.replicate (4 - buf.length) 0)
  else r.1

/-- Loop of synch::decode_slice: a byte of the input is copied to the
output unless the two input bytes immediately before it were 0xFF 0x00;
the two trailing arguments carry those two previous input bytes (both
initially 0). -/
def synch.decode_loop : List Nat → Nat → Nat → List Nat
  | [], _, _ => []
  | b :: rest, l0, l1 =>
    (if l0 ≠ 0xff ∨ l1 ≠ 0 then [b] else []) ++ synch.decode_loop rest l1 b

/-- Embeds synch::decode_slice (mpeg/tag.rs lines 295-311). -/
def synch.decode_slice (buf : List Nat) : List Nat :=
  synch.decode_loop buf 0 0

/-- Embeds synch::decode (mpeg/tag.rs lines 314-316). -/
def synch.decode (buf : List Nat) : List Nat :=
  synch.decode_slice buf

/-
  Arithmetic helper lemmas for the synch-safe decoder.
-/

theorem mul_pow_lor_eq_add (a k b : Nat) (h : b < 2 ^ k) :
    (a * 2 ^ k) ||| b = a * 2 ^ k + b := by
  apply Nat.eq_of_testBit_eq
  intro i
  rw [Nat.testBit_lor]
  rcases lt_or_ge i k with hik | hik
  · have e1 : a * 2 ^ k = 2 * (a * 2 ^ (k - i - 1)) * 2 ^ i := by
      have e2 : (2:Nat) * (a * 2 ^ (k - i - 1)) * 2 ^ i
          = a * (2 ^ (k - i - 1) * 2 * 2 ^ i) := by ring
      rw [e2, ← pow_succ, ← pow_add]
      have e3 : k - i - 1 + 1 + i = k := by omega
      rw [e3]
    have h1 : Nat.testBit (a * 2 ^ k) i = false := by
      rw [← Nat.shiftLeft_eq, Nat.testBit_shiftLeft]
      have : ¬ (i ≥ k) := by omega
      simp [this]
    have h2 : Nat.testBit (a * 2 ^ k + b) i = Nat.testBit b i := by
      rw [Nat.testBit_to_div_mod, Nat.testBit_to_div_mod, e1, Nat.add_comm,
          Nat.add_mul_div_right _ _ (Nat.pos_pow_of_pos i (by norm_num))]
      simp only [decide_eq_decide]
      omega
    rw [h1, h2, Bool.false_or]
  · have h1 : Nat.testBit (a * 2 ^ k) i = Nat.testBit a (i - k) := by
      rw [← Nat.shiftLeft_eq, Nat.testBit_shiftLeft]
      simp [hik]
    have h2 : Nat.testBit b i = false := by
      apply Nat.testBit_lt_two_pow
      calc b < 2 ^ k := h
        _ ≤ 2 ^ i := Nat.pow_le_pow_right (by norm_num) hik
    have h3 : Nat.testBit (a * 2 ^ k + b) i = Nat.testBit a (i - k) := by
      rw [Nat.testBit_to_div_mod, Nat.testBit_to_div_mod]
      have e1 : (2:Nat) ^ i = 2 ^ k * 2 ^ (i - k) := by
        rw [← pow_add]
        congr 1
        omega
      rw [e1, ← Nat.div_div_eq_div_mul, Nat.add_comm,
          Nat.add_mul_div_right _ _ (Nat.pos_pow_of_pos k (by norm_num)),
          Nat.div_eq_of_lt h]
      simp
    rw [h1, h2, h3, Bool.or_false]

theorem and128_eq_zero {b : Nat} (h : b < 128) : b &&& 0x80 = 0 := by
  have h7 : Nat.testBit b 7 = false := Nat.testBit_lt_two_pow (by norm_num; omega)
  have := Nat.and_two_pow b 7
  norm_num at this ⊢
  rw [this, h7]
  simp

theorem and128_ne_zero {b : Nat} (h1 : 128 ≤ b) (h2 : b < 256) : b &&& 0x80 ≠ 0 := by
  have h7 : Nat.testBit b 7 = true := by
    rw [Nat.testBit_to_div_mod]
    have : b / 2 ^ 7 = 1 := by
      norm_num
      omega
    rw [this]
    norm_num
  have := Nat.and_two_pow b 7
  norm_num at this ⊢
  rw [this, h7]
  simp

theorem and127_lt (b : Nat) : b &&& 0x7f < 2 ^ 7 := by
  have : b &&& 0x7f ≤ 0x7f := Nat.and_le_right
  norm_num at this ⊢
  omega

/-- Claim C1: over 4-byte inputs, synch::int_from_buf is the 7-bit
synch-safe decoder when every high bit is clear, and the plain big-endian
u32 read when some high bit is set. -/
theorem synch_int_from_buf_four_bytes (b0 b1 b2 b3 : Nat)
    (h0 : b0 < 256) (h1 : b1 < 256) (h2 : b2 < 256) (h3 : b3 < 256) :
    ((b0 < 128 ∧ b1 < 128 ∧ b2 < 128 ∧ b3 < 128) →
      synch.int_from_buf [b0, b1, b2, b3] =
        (b0 &&& 0x7f) <<< 21 + (b1 &&& 0x7f) <<< 14 + (b2 &&& 0x7f) <<< 7 + (b3 &&& 0x7f)) ∧
    ((128 ≤ b0 ∨ 128 ≤ b1 ∨ 128 ≤ b2 ∨ 128 ≤ b3) →
      synch.int_from_buf [b0, b1, b2, b3] = b0 * 2 ^ 24 + b1 * 2 ^ 16 + b2 * 2 ^ 8 + b3) := by
  have hrange : List.range 4 = [0, 1, 2, 3] := by decide
  have base : synch.int_from_buf [b0, b1, b2, b3]
      = (if (synch.fold [b0, b1, b2, b3] 3 [0, 1, 2, 3] 0).2
         then read_u32 [b0, b1, b2, b3]
         else (synch.fold [b0, b1, b2, b3] 3 [0, 1, 2, 3] 0).1) := by
    simp [synch.int_from_buf, hrange, read_u32]
  constructor
  · rintro ⟨c0, c1, c2, c3⟩
    have run : synch.fold [b0, b1, b2, b3] 3 [0, 1, 2, 3] 0
        = ((((0 ||| ((b0 &&& 0x7f) <<< 21)) ||| ((b1 &&& 0x7f) <<< 14))
             ||| ((b2 &&& 0x7f) <<< 7)) ||| ((b3 &&& 0x7f) <<< 0), false) := by
      simp [synch.fold, List.getD, and128_eq_zero c0, and128_eq_zero c1,
            and128_eq_zero c2, and128_eq_zero c3]
    rw [base, run]
    simp only [if_neg (by simp : ¬ (false = true))]
    have A := and127_lt b0
    have B := and127_lt b1
    have C := and127_lt b2
    have D := and127_lt b3
    simp only [Nat.shiftLeft_eq, Nat.zero_or, pow_zero, mul_one]
    have e1 : (b0 &&& 0x7f) * 2 ^ 21 ||| (b1 &&& 0x7f) * 2 ^ 14
        = (b0 &&& 0x7f) * 2 ^ 21 + (b1 &&& 0x7f) * 2 ^ 14 := by
      apply mul_pow_lor_eq_add
      norm_num at B ⊢
      omega
    have f2 : (b0 &&& 0x7f) * 2 ^ 21 + (b1 &&& 0x7f) * 2 ^ 14
        = ((b0 &&& 0x7f) * 2 ^ 7 + (b1 &&& 0x7f)) * 2 ^ 14 := by ring
    have e2 : ((b0 &&& 0x7f) * 2 ^ 7 + (b1 &&& 0x7f)) * 2 ^ 14 ||| (b2 &&& 0x7f) * 2 ^ 7
        = ((b0 &&& 0x7f) * 2 ^ 7 + (b1 &&& 0x7f)) * 2 ^ 14 + (b2 &&& 0x7f) * 2 ^ 7 := by
      apply mul_pow_lor_eq_add
      norm_num at C ⊢
      omega
    have f3 : ((b0 &&& 0x7f) * 2 ^ 7 + (b1 &&& 0x7f)) * 2 ^ 14 + (b2 &&& 0x7f) * 2 ^ 7
        = ((b0 &&& 0x7f) * 2 ^ 14 + (b1 &&& 0x7f) * 2 ^ 7 + (b2 &&& 0x7f)) * 2 ^ 7 := by ring
    have e3 : ((b0 &&& 0x7f) * 2 ^ 14 + (b1 &&& 0x7f) * 2 ^ 7 + (b2 &&& 0x7f)) * 2 ^ 7
          ||| (b3 &&& 0x7f)
        = ((b0 &&& 0x7f) * 2 ^ 14 + (b1 &&& 0x7f) * 2 ^ 7 + (b2 &&& 0x7f)) * 2 ^ 7
          + (b3 &&& 0x7f) :=
      mul_pow_lor_eq_add _ _ _ D
    rw [e1, f2, e2, f3, e3]
  · intro hbad
    have run2 : (synch.fold [b0, b1, b2, b3] 3 [0, 1, 2, 3] 0).2 = true := by
      by_cases d0 : b0 < 128
      · by_cases d1 : b1 < 128
        · by_cases d2 : b2 < 128
          · have d3 : 128 ≤ b3 := by omega
            simp [synch.fold, List.getD, and128_eq_zero d0, and128_eq_zero d1,
                  and128_eq_zero d2, and128_ne_zero d3 h3]
          · have d2 : 128 ≤ b2 := by omega
            simp [synch.fold, List.getD, and128_eq_zero d0, and128_eq_zero d1,
                  and128_ne_zero d2 h2]
        · have d1 : 128 ≤ b1 := by omega
          simp [synch.fold, List.getD, and128_eq_zero d0, and128_ne_zero d1 h1]
      · have d0 : 128 ≤ b0 := by omega
        simp [synch.fold, List.getD, and128_ne_zero d0 h0]
    rw [base, if_pos run2]
    simp [read_u32, List.getD]

/-- Witness for C1: both halves evaluated at concrete byte values. -/
theorem synch_int_from_buf_four_bytes_witness :
    synch.int_from_buf [1, 2, 3, 4]
      = (1 &&& 0x7f) <<< 21 + (2 &&& 0x7f) <<< 14 + (3 &&& 0x7f) <<< 7 + (4 &&& 0x7f) ∧
    synch.int_from_buf [200, 2, 3, 4] = 200 * 2 ^ 24 + 2 * 2 ^ 16 + 3 * 2 ^ 8 + 4 := by
  constructor
  · exact (synch_int_from_buf_four_bytes 1 2 3 4 (by norm_num) (by norm_num)
      (by norm_num) (by norm_num)).1 (by norm_num)
  · exact (synch_int_from_buf_four_bytes 200 2 3 4 (by norm_num) (by norm_num)
      (by norm_num) (by norm_num)).2 (by norm_num)

/-- Claim C2 (failing part): the unsynchronization decoder applied to
0xFF 0x00 0x01 drops the byte after the 0xFF 0x00 pair and returns
0xFF 0x00, not 0xFF 0x01 as the claim states; on buffers with no
0xFF 0x00 pair it is the identity, shown here on a concrete pair-free
buffer. -/
theorem synch_decode_slice_drops_wrong_byte :
    synch.decode_slice [0xff, 0x00, 0x01] = [0xff, 0x00] ∧
    synch.decode_slice [0x01, 0xff, 0x02, 0x00] = [0x01, 0xff, 0x02, 0x00] := by
  constructor <;> rfl

/-
  ID3v2 frame reader, mpeg/frame.rs.
-/

/-- Byte length of the UTF8 encoding of a Rust String made of the given
chars, embedding String::len (Rust measures strings in UTF8 bytes, so a
char pushed from a byte at or above 0x80 counts as two). -/
def rust_str_len (s : List Char) : Nat :=
  (s.map (fun c =>
    if c.toNat < 0x80 then 1
    else if c.toNat < 0x800 then 2
    else if c.toNat < 0x10000 then 3
    else 4)).sum

/-- Embeds enum StringType of mpeg/frame.rs (lines 301-309). -/
inductive StringType : Type
  | Latin1 | UTF16 | UTF16be | UTF8 | UTF16le | Invalid
deriving DecidableEq, Repr

/-- Embeds the From u8 conversion for StringType (frame.rs lines 311-322). -/
def StringType.fromByte : Nat → StringType
  | 0 => StringType.Latin1
  | 1 => StringType.UTF16
  | 2 => StringType.UTF16be
  | 3 => StringType.UTF8
  | 4 => StringType.UTF16le
  | _ => StringType.Invalid

/-- Embeds enum SubClass of mpeg/frame.rs (lines 324-329). -/
inductive SubClass : Type
  | Text (s : List Char) (t : StringType)
  | Uint (n : Nat)
  | Unknown
deriving DecidableEq, Repr

/-- Frame map of an mpeg Tag: the HashMap from frame id to SubClass is
modelled as an association list with pairwise distinct keys, carrying the
entries in insertion order. -/
abbrev FrameMap : Type := List (List Char × SubClass)

/-- First-match lookup in a frame map (HashMap::get). -/
def flookup (k : List Char) : FrameMap → Option SubClass
  | [] => none
  | p :: rest => if p.1 = k then some p.2 else flookup k rest

/-- Insertion into a frame map (HashMap::insert): replace the value when
the key is present, append otherwise. -/
def mapInsert (m : FrameMap) (k : List Char) (v : SubClass) : FrameMap :=
  if (flookup k m).isSome then
    m.map (fun p => if p.1 = k then (k, v) else p)
  else m ++ [(k, v)]

/-- Embeds struct Header of mpeg/frame.rs (lines 331-343) with the
defaults of Header::default (lines 346-360). -/
structure frame.Header : Type where
  frame_id : List Char := []
  size : Nat := 0
  version : Nat := 0
  data_length_indicator : Bool := false
  unsynch : Bool := false
  tag_alter_preservation : Bool := false
  file_alter_preservation : Bool := false
  read_only : Bool := false
  compression : Bool := false
  encryption : Bool := false
  grouping_ident : Bool := false
deriving DecidableEq, Repr

/-- Embeds struct Frame of mpeg/frame.rs (lines 12-16). -/
structure frame.Frame : Type where
  size : Nat
  frame_id : List Char
  sub : SubClass
deriving DecidableEq, Repr

/-- Embeds sizeof_frame_header (frame.rs lines 401-407). -/
def frame.sizeof_frame_header (version : Nat) : Nat :=
  if version < 3 then 6 else 10

/-- Embeds the id renaming of Header::update (frame.rs lines 362-374):
legacy ids are rewritten before the per-version validity check. -/
def frame.rename_id (id : List Char) : List Char :=
  if id = ("TORY".toList) then ("TDOR".toList)
  else if id = ("TYER".toList) then ("TDRC".toList)
  else if id = ("IPLS".toList) then ("TIPL".toList)
  else id

/-- Embeds the per-version validity result of Header::update (frame.rs
lines 376-397), evaluated on the already renamed id. -/
def frame.update_ok (id : List Char) (version : Nat) : Bool :=
  if version = 2 then
    !(id == "CRM".toList || id == "EQU".toList || id == "LNK".toList ||
      id == "RVA".toList || id == "TIM".toList || id == "TDA".toList ||
      id == "TSI".toList)
  else if version = 3 then
    !(id == "EQUA".toList || id == "RVAD".toList || id == "TIME".toList ||
      id == "TRDA".toList || id == "TSIZ".toList || id == "TDAT".toList)
  else true

/-- Embeds Frame::get_header (frame.rs lines 19-90). -/
def frame.get_header (buf : List Nat) (version : Nat) : MRes frame.Header :=
  if version < 3 then
    if buf.length < 3 then MRes.err ("Frame ID not specified")
    else
      MRes.ok { frame_id := utils.from_ascii (seg buf 0 3)
                size := if buf.length < 6 then 0
                        else read_u32 [buf.getD 3 0, buf.getD 4 0, buf.getD 5 0, 0]
                version := version }
  else if version = 3 then
    if buf.length < 4 then MRes.err ("Frame ID not specified")
    else if buf.length ≥ 10 then
      MRes.ok { frame_id := utils.from_ascii (seg buf 0 4)
                size := read_u32 (seg buf 4 8)
                version := version
                tag_alter_preservation := buf.getD 8 0 &&& 0b10000000 != 0
                file_alter_preservation := buf.getD 8 0 &&& 0b1000000 != 0
                read_only := buf.getD 8 0 &&& 0b100000 != 0
                compression := buf.getD 9 0 &&& 0b10000000 != 0
                encryption := buf.getD 9 0 &&& 0b1000000 != 0
                grouping_ident := buf.getD 9 0 &&& 0b100000 != 0 }
    else
      MRes.ok { frame_id := utils.from_ascii (seg buf 0 4), version := version }
  else
    if buf.length < 4 then MRes.err ("Frame ID not specified")
    else if buf.length ≥ 10 then
      MRes.ok { frame_id := utils.from_ascii (seg buf 0 4)
                size := synch.int_from_buf (seg buf 4 8)
                version := version
                tag_alter_preservation := buf.getD 8 0 &&& 0b1000000 != 0
                file_alter_preservation := buf.getD 8 0 &&& 0b100000 != 0
                read_only := buf.getD 8 0 &&& 0b10000 != 0
                grouping_ident := buf.getD 9 0 &&& 0b1000000 != 0
                compression := buf.getD 9 0 &&& 0b1000 != 0
                encryption := buf.getD 9 0 &&& 0b100 != 0
                unsynch := buf.getD 9 0 &&& 0b10 != 0
                data_length_indicator := buf.getD 9 0 &&& 0b1 != 0 }
    else
      MRes.ok { frame_id := utils.from_ascii (seg buf 0 4), version := version }

/-- Embeds the while loop stripping trailing zero bytes in the text-frame
arm (frame.rs lines 162-164): the argument is the current value of len
and the result is its final value. -/
def frame.strip_len (data : List Nat) : Nat → Nat
  | 0 => 0
  | l + 1 => if data.getD (l + 1) 0 = 0 then frame.strip_len data l else l + 1

/-- Embeds String::from_utf16: decodes UTF16 code units, pairing
surrogates, and fails on any unpaired surrogate. -/
def str.from_utf16 : List Nat → Option (List Char)
  | [] => some []
  | u :: rest =>
    if u < 0xd800 ∨ 0xe000 ≤ u then
      match str.from_utf16 rest with
      | some cs => some (Char.ofNat u :: cs)
      | none => none
    else if u < 0xdc00 then
      match rest with
      | [] => none
      | lo :: rest2 =>
        if 0xdc00 ≤ lo ∧ lo < 0xe000 then
          match str.from_utf16 rest2 with
          | some cs =>
            some (Char.ofNat (0x10000 + (u - 0xd800) * 0x400 + (lo - 0xdc00)) :: cs)
          | none => none
        else none
    else none

/-- Continuation-byte test for UTF8 decoding. -/
def utf8_cont (b : Nat) : Bool :=
  0x80 ≤ b && b < 0xc0

/-- Embeds str::from_utf8 (followed by to_string): strict UTF8 decoding,
rejecting overlong forms, surrogates and code points above 0x10FFFF. -/
def str.from_utf8 : List Nat → Option (List Char)
  | [] => some []
  | b :: rest =>
    if b < 0x80 then
      (str.from_utf8 rest).map (fun cs => Char.ofNat b :: cs)
    else if b < 0xc2 then none
    else if b < 0xe0 then
      match rest with
      | c1 :: rest2 =>
        if utf8_cont c1 then
          (str.from_utf8 rest2).map (fun cs =>
            Char.ofNat ((b - 0xc0) * 0x40 + (c1 - 0x80)) :: cs)
        else none
      | [] => none
    else if b < 0xf0 then
      match rest with
      | c1 :: c2 :: rest3 =>
        if (if b = 0xe0 then decide (0xa0 ≤ c1) && decide (c1 < 0xc0)
            else if b = 0xed then decide (0x80 ≤ c1) && decide (c1 < 0xa0)
            else utf8_cont c1) && utf8_cont c2 then
          (str.from_utf8 rest3).map (fun cs =>
            Char.ofNat ((b - 0xe0) * 0x1000 + (c1 - 0x80) * 0x40 + (c2 - 0x80)) :: cs)
        else none
      | _ => none
    else if b < 0xf5 then
      match rest with
      | c1 :: c2 :: c3 :: rest4 =>
        if (if b = 0xf0 then decide (0x90 ≤ c1) && decide (c1 < 0xc0)
            else if b = 0xf4 then decide (0x80 ≤ c1) && decide (c1 < 0x90)
            else utf8_cont c1) && utf8_cont c2 && utf8_cont c3 then
          (str.from_utf8 rest4).map (fun cs =>
            Char.ofNat ((b - 0xf0) * 0x40000 + (c1 - 0x80) * 0x1000
              + (c2 - 0x80) * 0x40 + (c3 - 0x80)) :: cs)
        else none
      | _ => none
    else none

/-- Embeds Frame::field_data (frame.rs lines 266-283).  Slice indexing
out of range is a panic. -/
def frame.field_data (buf : List Nat) (h : frame.Header) : MRes (List Nat) :=
  let header_size := frame.sizeof_frame_header h.version
  let step : MRes (Nat × Nat) :=
    if h.compression || h.data_length_indicator then
      if header_size + 4 ≤ buf.length then
        MRes.ok (header_size + 4, synch.int_from_buf (seg buf header_size (header_size + 4)))
      else MRes.panic
    else MRes.ok (header_size, h.size)
  match step with
  | MRes.panic => MRes.panic
  | MRes.err e => MRes.err e
  | MRes.ok (offset, len) =>
    if h.compression && !h.encryption then
      MRes.err ("Compressed frames not currently supported")
    else
      let e := min buf.length (offset + len)
      if offset ≤ e then MRes.ok (seg buf offset e) else MRes.panic

/-- Embeds struct TagHeader of mpeg/tag.rs (lines 225-233). -/
structure TagHeader : Type where
  major_version : Nat
  rev_num : Nat
  size : Nat
  unsynch : Bool
  extended : Bool
  experimental : Bool
  footer : Bool
deriving DecidableEq, Repr

/-- Embeds Frame::from_buffer (frame.rs lines 92-264).  The first
component of an ok result is the parsed frame (none when the frame fails
the structural checks of lines 96-102), the second is the byte buffer
after the in-place per-frame unsynchronization write of lines 117-124. -/
def frame.Frame.from_buffer (buf : List Nat) (header : TagHeader) :
    MRes (Option frame.Frame × List Nat) :=
  let version := header.major_version
  match frame.get_header buf version with
  | MRes.err e => MRes.err e
  | MRes.panic => MRes.panic
  | MRes.ok fh0 =>
    if rust_str_len fh0.frame_id ≠ (if version < 3 then 3 else 4)
        ∨ fh0.size ≤ (if fh0.data_length_indicator then 4 else 0)
        ∨ fh0.size > buf.length then
      MRes.ok (none, buf)
    else
      let last_char := fh0.frame_id.getLast?.getD 'a'
      let fh :=
        if version = 3 ∧ rust_str_len fh0.frame_id = 4 ∧ last_char = Char.ofNat 0 then
          { fh0 with frame_id := frame.rename_id fh0.frame_id.dropLast }
        else fh0
      if ¬ (∀ ch ∈ fh.frame_id, ('A' ≤ ch ∧ ch ≤ 'Z') ∨ ('0' ≤ ch ∧ ch ≤ '9')) then
        MRes.err ("Frame ID was not 4 uppercase Latin1 Letters")
      else
        let unsy : MRes (List Nat) :=
          if version > 3 ∧ (header.unsynch = true ∨ fh.unsynch = true) then
            let hs := frame.sizeof_frame_header version
            if hs + header.size ≤ buf.length then
              let tmp := synch.decode_slice (seg buf hs (hs + header.size))
              MRes.ok ((buf.take hs) ++ tmp ++ buf.drop (hs + tmp.length))
            else MRes.panic
          else MRes.ok buf
        match unsy with
        | MRes.err e => MRes.err e
        | MRes.panic => MRes.panic
        | MRes.ok buf1 =>
          if fh.compression then MRes.err ("Compressed frames not currently supported")
          else if fh.encryption then MRes.err ("Encrypted frames not currently supported")
          else
            let fr0 : frame.Frame :=
              { size := fh.size, frame_id := fh.frame_id, sub := SubClass.Unknown }
            let fid := frame.rename_id fh.frame_id
            if frame.update_ok fid version = false then MRes.ok (some fr0, buf1)
            else
              let first_char := fid.headD (Char.ofNat 0)
              if first_char = 'T' ∨ fid = "WFED".toList ∨ fid = "MVNM".toList
                  ∨ fid = "MVIN".toList then
                match frame.field_data buf1 fh with
                | MRes.err e => MRes.err e
                | MRes.panic => MRes.panic
                | MRes.ok data =>
                  if data.length < 2 then
                    MRes.ok (some { fr0 with sub := SubClass.Text [] StringType.UTF16 }, buf1)
                  else
                    let encoding := StringType.fromByte (data.getD 0 0)
                    let alignment : Nat :=
                      match encoding with
                      | StringType.Latin1 | StringType.UTF8 => 1
                      | _ => 2
                    -- the alignment while loop adds at most one since alignment is 1 or 2
                    let len0 := frame.strip_len data (data.length - 1)
                    let len1 := if len0 % alignment = 0 then len0 else len0 + 1
                    let e := min (len1 + 1) data.length
                    let textRes : MRes (List Char) :=
                      match encoding with
                      | StringType.Latin1 => MRes.ok (utils.from_ascii (seg data 1 e))
                      | StringType.UTF16 | StringType.UTF16be | StringType.UTF16le =>
                        let sbuf := seg data 1 e
                        match sbuf.get? 0 with
                        | none => MRes.panic
                        | some s0 =>
                          -- Rust && is lazy: sbuf[1] is only read when sbuf[0] is 0xff
                          let swapRes : MRes Bool :=
                            if s0 = 0xff then
                              match sbuf.get? 1 with
                              | none => MRes.panic
                              | some s1 => MRes.ok (s1 == 0xfe)
                            else MRes.ok false
                          match swapRes with
                          | MRes.err e => MRes.err e
                          | MRes.panic => MRes.panic
                          | MRes.ok swap =>
                            let units := (List.range' 1 (sbuf.length / 2 - 1)).map (fun i =>
                              if swap then
                                ((sbuf.getD (i + 1) 0 &&& 0xff) <<< 8) ||| (sbuf.getD i 0 &&& 0xff)
                              else
                                ((sbuf.getD i 0 &&& 0xff) <<< 8) ||| (sbuf.getD (i + 1) 0 &&& 0xff))
                            match str.from_utf16 units with
                            | some s => MRes.ok s
                            | none => MRes.err ("Failed to convert string from utf16")
                      | _ =>
                        match str.from_utf8 (seg data 1 e) with
                        | some s => MRes.ok s
                        | none => MRes.err ("Failed to convert string from utf8")
                    match textRes with
                    | MRes.err e2 => MRes.err e2
                    | MRes.panic => MRes.panic
                    | MRes.ok text =>
                      MRes.ok (some { fr0 with sub := SubClass.Text text encoding }, buf1)
              else
                -- every non-text arm of the dispatch of lines 214-260 yields Unknown
                MRes.ok (some fr0, buf1)

/-- Tag header used in the concrete frame evaluations below: a plain
ID3v2.3 header with no flags set. -/
def v3_header : TagHeader :=
  { major_version := 3, rev_num := 0, size := 0,
    unsynch := false, extended := false, experimental := false, footer := false }

/-- Claim C4 (failing): a v2.3 frame whose id bytes are T T 2 NUL is
discarded, not kept.  utils::from_ascii already drops the trailing NUL
while reading the id, so the 4-character length check of from_buffer
(line 96) fails and the frame is rejected as Ok(None) before the NUL
truncation hack of lines 105-109 can run. -/
theorem frame_v3_null_id_discarded :
    frame.Frame.from_buffer
      [0x54, 0x54, 0x32, 0x00, 0, 0, 0, 1, 0, 0, 0x41] v3_header
      = MRes.ok (none, [0x54, 0x54, 0x32, 0x00, 0, 0, 0, 1, 0, 0, 0x41]) ∧
    utils.from_ascii [0x54, 0x54, 0x32, 0x00] = "TT2".toList := by
  constructor <;> rfl

/-- Claim C5 (failing): the text frame with payload 0x01 0xFF 0xFE 0x41
0x00 (UTF16, little-endian BOM, letter A) decodes to the single char
U+41FE, not to the string A: the UTF16 extraction loop of frame.rs lines
186-198 pairs bytes starting inside the BOM. -/
theorem frame_text_utf16_mangled :
    frame.Frame.from_buffer
      [0x54, 0x49, 0x54, 0x32, 0, 0, 0, 5, 0, 0, 0x01, 0xff, 0xfe, 0x41, 0x00]
      v3_header
      = MRes.ok (some { size := 5, frame_id := "TIT2".toList,
                        sub := SubClass.Text [Char.ofNat 0x41fe] StringType.UTF16 },
                 [0x54, 0x49, 0x54, 0x32, 0, 0, 0, 5, 0, 0, 0x01, 0xff, 0xfe, 0x41, 0x00]) ∧
    [Char.ofNat 0x41fe] ≠ "A".toList := by
  constructor
  · rfl
  · decide

/-- Embeds parse_tag_header (mpeg/tag.rs lines 235-255).  The footer flag
is masked with 0b00000 in the source, faithfully reproduced here, so a
parsed header never has footer set. -/
def parse_tag_header (buf : List Nat) : MRes TagHeader :=
  if buf.length < 10 then MRes.err ("Header too small")
  else if ¬ (∀ b ∈ seg buf 6 10, b < 128) then
    MRes.err ("Size byte greater than allowed 128")
  else
    MRes.ok { major_version := buf.getD 3 0
              rev_num := buf.getD 4 0
              size := synch.int_from_buf (seg buf 6 10)
              unsynch := buf.getD 5 0 &&& 0b10000000 != 0
              extended := buf.getD 5 0 &&& 0b1000000 != 0
              experimental := buf.getD 5 0 &&& 0b100000 != 0
              footer := buf.getD 5 0 &&& 0b00000 != 0 }

/-- Embeds sizeof_footer (mpeg/tag.rs lines 319-321). -/
def sizeof_footer : Nat := 10

/-- Embeds the frame-iteration while loop of Tag::from_buffer
(mpeg/tag.rs lines 175-209): pos and bufEnd delimit the remaining
region, acc is the frame map built so far.  The usize subtraction in the
loop bound aborts in debug builds when bufEnd is below one frame header,
modelled as a panic. -/
def Tag.frame_loop (header : TagHeader) (buf : List Nat) (pos bufEnd : Nat)
    (acc : FrameMap) : MRes FrameMap :=
  if bufEnd < frame.sizeof_frame_header header.major_version then MRes.panic
  else if hlt : pos < bufEnd - frame.sizeof_frame_header header.major_version then
    match buf.get? pos with
    | none => MRes.panic
    | some b =>
      if b = 0 then
        if header.footer then
          MRes.err ("Padding and footers are not allowed by the spec")
        else MRes.ok acc
      else
        match frame.Frame.from_buffer (buf.drop pos) header with
        | MRes.err e => MRes.err e
        | MRes.panic => MRes.panic
        | MRes.ok (none, _) => MRes.ok acc
        | MRes.ok (some fr, buf1) =>
          if hz : fr.size = 0 then MRes.ok acc
          else
            let sub := if fr.frame_id = "TDRC".toList ∨ fr.frame_id = "TRCK".toList
                       then SubClass.Uint 0 else fr.sub
            Tag.frame_loop header (buf.take pos ++ buf1)
              (pos + (fr.size + frame.sizeof_frame_header header.major_version))
              bufEnd (mapInsert acc fr.frame_id sub)
  else MRes.ok acc
termination_by bufEnd - pos
decreasing_by
  simp_wf
  omega

/-- Embeds Tag::from_buffer (mpeg/tag.rs lines 148-214): whole-tag
unsynchronization for versions up to 3, footer trimming of the region
end, then frame iteration from position 0 with an empty map. -/
def Tag.from_buffer (buf : List Nat) (header : TagHeader) : MRes FrameMap :=
  let buf1 := if header.unsynch = true ∧ header.major_version ≤ 3
              then synch.decode buf else buf
  let bufEnd0 := buf1.length
  let bufEnd := if header.footer = true ∧ sizeof_footer ≤ bufEnd0
                then bufEnd0 - sizeof_footer else bufEnd0
  Tag.frame_loop header buf1 0 bufEnd []

/-- Claim C9: during frame iteration, a leading zero byte is fatal when
the header declares a footer and otherwise ends the loop cleanly with the
frames decoded so far. -/
theorem tag_frame_loop_padding (header : TagHeader) (buf : List Nat)
    (pos bufEnd : Nat) (acc : FrameMap)
    (h1 : ¬ bufEnd < frame.sizeof_frame_header header.major_version)
    (h2 : pos < bufEnd - frame.sizeof_frame_header header.major_version)
    (h3 : buf.get? pos = some 0) :
    (header.footer = true →
      Tag.frame_loop header buf pos bufEnd acc
        = MRes.err ("Padding and footers are not allowed by the spec")) ∧
    (header.footer = false →
      Tag.frame_loop header buf pos bufEnd acc = MRes.ok acc) := by
  rw [Tag.frame_loop]
  rw [if_neg h1, dif_pos h2, h3]
  constructor
  · intro hf
    simp [hf]
  · intro hf
    simp [hf]

/-- Witness for C9: both footer cases at a concrete loop state. -/
theorem tag_frame_loop_padding_witness :
    Tag.frame_loop
      { major_version := 4, rev_num := 0, size := 0, unsynch := false,
        extended := false, experimental := false, footer := true }
      [0] 0 20 [] = MRes.err ("Padding and footers are not allowed by the spec") ∧
    Tag.frame_loop
      { major_version := 4, rev_num := 0, size := 0, unsynch := false,
        extended := false, experimental := false, footer := false }
      [0] 0 20 [] = MRes.ok [] := by
  constructor
  · exact (tag_frame_loop_padding _ [0] 0 20 []
      (by decide) (by decide) rfl).1 rfl
  · exact (tag_frame_loop_padding _ [0] 0 20 []
      (by decide) (by decide) rfl).2 rfl

/-
  Tag unification, mpeg/tag.rs lines 76-97, and the ID3v1 reader,
  lines 119-146.
-/

/-- Test for a Text value tagged with the UTF16 marker, the only kind of
existing entry that Tag::unify overwrites. -/
def isUTF16Text : SubClass → Bool
  | SubClass.Text _ StringType.UTF16 => true
  | _ => false

/-- Embeds the per-entry body of Tag::unify (tag.rs lines 82-92): an
occupied entry is replaced only when it currently holds a UTF16 Text
value, a vacant entry is filled. -/
def unifyStep (m : FrameMap) (k : List Char) (v : SubClass) : FrameMap :=
  match flookup k m with
  | some (SubClass.Text _ StringType.UTF16) => mapInsert m k v
  | some _ => m
  | none => mapInsert m k v

/-- Folds one source tag into the accumulated map, entry by entry
(the inner for loop of Tag::unify). -/
def unifyEntries (ret : FrameMap) : List (List Char × SubClass) → FrameMap
  | [] => ret
  | p :: rest => unifyEntries (unifyStep ret p.1 p.2) rest

/-- Folds the source tags in order (the outer for loop of Tag::unify). -/
def unifyAll (ret : FrameMap) : List FrameMap → FrameMap
  | [] => ret
  | t :: ts => unifyAll (unifyEntries ret t) ts

/-- Embeds Tag::unify (tag.rs lines 76-97), with each HashMap modelled
as an association list carrying its entries in a fixed order. -/
def Tag.unify (tags : List FrameMap) : FrameMap :=
  unifyAll [] tags

theorem flookup_map_replace (m : FrameMap) (k k2 : List Char) (v : SubClass) :
    flookup k (m.map (fun p => if p.1 = k2 then (k2, v) else p))
      = if k = k2 then (if (flookup k2 m).isSome then some v else none)
        else flookup k m := by
  induction m with
  | nil => by_cases h : k = k2 <;> simp [flookup, h]
  | cons p rest ih =>
    by_cases hp : p.1 = k2
    · by_cases hk : k = k2
      · simp [flookup, hp, hk]
      · have hne : ¬ (k2 = k) := fun h => hk h.symm
        simp [flookup, hp, hk, hne, ih]
    · by_cases hpk : p.1 = k
      · have hk : ¬ (k = k2) := by
          intro h
          exact hp (hpk.trans h)
        simp [flookup, hp, hpk, hk]
      · simp [flookup, hp, hpk, ih]

theorem flookup_append (m m2 : FrameMap) (k : List Char) :
    flookup k (m ++ m2)
      = match flookup k m with
        | some w => some w
        | none => flookup k m2 := by
  induction m with
  | nil => simp [flookup]
  | cons p rest ih =>
    by_cases hp : p.1 = k <;> simp [flookup, hp, ih]

theorem flookup_mapInsert (m : FrameMap) (k k2 : List Char) (v : SubClass) :
    flookup k (mapInsert m k2 v)
      = if k = k2 then some v else flookup k m := by
  unfold mapInsert
  by_cases hs : (flookup k2 m).isSome
  · rw [if_pos hs, flookup_map_replace]
    by_cases hk : k = k2 <;> simp [hk, hs]
  · rw [if_neg hs, flookup_append]
    by_cases hk : k = k2
    · subst hk
      rcases h : flookup k m with _ | w
    <;> simp [flookup, h] at hs ⊢
    · have hne : ¬ (k2 = k) := fun h => hk h.symm
      rcases h : flookup k m with _ | w <;> simp [flookup, h, hne, hk]

theorem flookup_unifyStep (m : FrameMap) (k k2 : List Char) (v : SubClass) :
    flookup k (unifyStep m k2 v)
      = if k = k2 then
          (match flookup k2 m with
           | none => some v
           | some w => if isUTF16Text w then some v else some w)
        else flookup k m := by
  unfold unifyStep
  rcases h : flookup k2 m with _ | w
  case none =>
    rw [flookup_mapInsert]
  case some =>
    rcases w with ⟨s, t⟩ | n | _
    · rcases t <;> by_cases hk : k = k2 <;>
        simp [flookup_mapInsert, isUTF16Text, hk, h]
    · by_cases hk : k = k2 <;> simp [flookup_mapInsert, isUTF16Text, hk, h]
    · by_cases hk : k = k2 <;> simp [flookup_mapInsert, isUTF16Text, hk, h]

theorem isSome_unifyStep (m : FrameMap) (k k2 : List Char) (v : SubClass) :
    (flookup k (unifyStep m k2 v)).isSome = true
      ↔ ((flookup k m).isSome = true ∨ k = k2) := by
  rw [flookup_unifyStep]
  by_cases hk : k = k2
  · subst hk
    rcases h : flookup k m with _ | w <;> simp [h]
    by_cases hu : isUTF16Text w <;> simp [hu]
  · simp [hk]

theorem isSome_unifyEntries (t : List (List Char × SubClass)) (ret : FrameMap)
    (k : List Char) :
    (flookup k (unifyEntries ret t)).isSome = true
      ↔ ((flookup k ret).isSome = true ∨ (flookup k t).isSome = true) := by
  induction t generalizing ret with
  | nil => simp [unifyEntries, flookup]
  | cons p rest ih =>
    simp only [unifyEntries]
    rw [ih]
    rw [isSome_unifyStep]
    by_cases hp : p.1 = k
    · simp [flookup, hp]
    · have hp2 : ¬ (k = p.1) := fun h => hp h.symm
      simp [flookup, hp, hp2]

theorem isSome_unifyAll (ts : List FrameMap) (ret : FrameMap) (k : List Char) :
    (flookup k (unifyAll ret ts)).isSome = true
      ↔ ((flookup k ret).isSome = true ∨ ∃ t ∈ ts, (flookup k t).isSome = true) := by
  induction ts generalizing ret with
  | nil =>
    simp only [unifyAll]
    constructor
    · intro h
      exact Or.inl h
    · intro h
      rcases h with h | ⟨t, ht, hsome⟩
      · exact h
      · exact absurd ht (List.not_mem_nil t)
  | cons t rest ih =>
    simp only [unifyAll]
    rw [ih, isSome_unifyEntries]
    simp only [List.mem_cons]
    constructor
    · intro h
      rcases h with (h | h) | ⟨u, hu, hsome⟩
      · exact Or.inl h
      · exact Or.inr ⟨t, Or.inl rfl, h⟩
      · exact Or.inr ⟨u, Or.inr hu, hsome⟩
    · intro h
      rcases h with h | ⟨u, hu | hu, hsome⟩
      · exact Or.inl (Or.inl h)
      · exact Or.inl (Or.inr (hu ▸ hsome))
      · exact Or.inr ⟨u, hu, hsome⟩

/-- Claim C6: Tag::unify produces the union of the key sets of its
inputs, an occupied entry is overwritten exactly when it holds a UTF16
Text value, and in particular with two sources both defining TIT2 the
first one wins unless its value is UTF16-tagged. -/
theorem tag_unify_spec :
    (∀ (tags : List FrameMap) (k : List Char),
      (flookup k (Tag.unify tags)).isSome = true
        ↔ ∃ t ∈ tags, (flookup k t).isSome = true) ∧
    (∀ (m : FrameMap) (k : List Char) (v w : SubClass),
      flookup k m = some w →
        flookup k (unifyStep m k v) = some (if isUTF16Text w then v else w)) ∧
    (∀ (m : FrameMap) (k : List Char) (v : SubClass),
      flookup k m = none → flookup k (unifyStep m k v) = some v) ∧
    (∀ v2 v1 : SubClass,
      flookup ("TIT2".toList)
          (Tag.unify [[(("TIT2".toList), v2)], [(("TIT2".toList), v1)]])
        = some (if isUTF16Text v2 then v1 else v2)) := by
  refine ⟨?_, ?_, ?_, ?_⟩
  · intro tags k
    have h := isSome_unifyAll tags [] k
    constructor
    · intro hx
      rcases h.mp hx with hfalse | hex
      · rw [show flookup k ([] : FrameMap) = none from rfl] at hfalse
        exact Bool.noConfusion hfalse
      · exact hex
    · intro hex
      exact h.mpr (Or.inr hex)
  · intro m k v w h
    rw [flookup_unifyStep]
    by_cases hu : isUTF16Text w <;> simp [h, hu]
  · intro m k v h
    rw [flookup_unifyStep]
    simp [h]
  · intro v2 v1
    rcases v2 with ⟨s, t⟩ | n | _
    · rcases t <;> rfl
    · rfl
    · rfl

/-- Witness for C6: the overwrite rule applied to a concrete occupied
map holding a UTF16 Text value. -/
theorem tag_unify_spec_witness :
    flookup ("TIT2".toList)
        (unifyStep [(("TIT2".toList), SubClass.Text [] StringType.UTF16)]
          ("TIT2".toList) (SubClass.Uint 5))
      = some (if isUTF16Text (SubClass.Text [] StringType.UTF16)
              then SubClass.Uint 5 else SubClass.Text [] StringType.UTF16) :=
  tag_unify_spec.2.1 _ _ _ _ rfl

/-- Embeds Tag::id3v1_from_file (mpeg/tag.rs lines 119-146) on the
128-byte block read from the file: the title, artist and album fields,
then the version-1.1 comment and track split on bytes 125 and 126. -/
def Tag.id3v1_from_block (block : List Nat) : FrameMap :=
  let m1 := mapInsert [] ("TIT2".toList)
    (SubClass.Text (utils.from_ascii (seg block 3 33)) StringType.UTF8)
  let m2 := mapInsert m1 ("TPE1".toList)
    (SubClass.Text (utils.from_ascii (seg block 33 63)) StringType.UTF8)
  let m3 := mapInsert m2 ("TALB".toList)
    (SubClass.Text (utils.from_ascii (seg block 63 93)) StringType.UTF8)
  if block.getD 125 0 = 0 ∧ block.getD 126 0 ≠ 0 then
    mapInsert
      (mapInsert m3 ("COMM".toList)
        (SubClass.Text (utils.from_ascii (seg block 97 125)) StringType.UTF8))
      ("TRCK".toList) (SubClass.Uint (block.getD 126 0))
  else
    mapInsert m3 ("COMM".toList)
      (SubClass.Text (utils.from_ascii (seg block 97 127)) StringType.UTF8)

/-- Claim C7: in a 128-byte ID3v1 block, byte 125 zero with byte 126
nonzero selects the v1.1 layout (comment bytes 97..125, track from byte
126); otherwise the comment spans bytes 97..127 and no track entry is
made. -/
theorem id3v1_comment_track (block : List Nat) (hlen : block.length = 128) :
    ((block.getD 125 0 = 0 ∧ block.getD 126 0 ≠ 0) →
      flookup ("COMM".toList) (Tag.id3v1_from_block block)
          = some (SubClass.Text (utils.from_ascii (seg block 97 125)) StringType.UTF8) ∧
      flookup ("TRCK".toList) (Tag.id3v1_from_block block)
          = some (SubClass.Uint (block.getD 126 0))) ∧
    (¬ (block.getD 125 0 = 0 ∧ block.getD 126 0 ≠ 0) →
      flookup ("COMM".toList) (Tag.id3v1_from_block block)
          = some (SubClass.Text (utils.from_ascii (seg block 97 127)) StringType.UTF8) ∧
      flookup ("TRCK".toList) (Tag.id3v1_from_block block) = none) := by
  constructor
  · intro hc
    unfold Tag.id3v1_from_block
    rw [if_pos hc]
    exact ⟨rfl, rfl⟩
  · intro hc
    unfold Tag.id3v1_from_block
    rw [if_neg hc]
    exact ⟨rfl, rfl⟩

/-- Witness for C7: the all-zero block takes the no-track branch. -/
theorem id3v1_comment_track_witness :
    flookup ("TRCK".toList) (Tag.id3v1_from_block (List.replicate 128 0)) = none :=
  ((id3v1_comment_track (List.replicate 128 0) (by simp)).2 (by decide)).2

/-
  M4A side, m4a.rs.
-/

/-- Modelled from the spec: enum TagData of the meta module, whose file
is not under src/ (m4a.rs only uses it); spec section 3 fixes the closed
variant set Empty, Bool, Uint(u64), IntPair(u32,u32), Str(String),
Unimplemented. -/
inductive TagData : Type
  | Empty
  | Bool (b : Bool)
  | Uint (n : Nat)
  | IntPair (a b : Nat)
  | Str (s : String)
  | Unimplemented
deriving DecidableEq, Repr

/-- Value of u32::MAX, the expected_flags sentinel of parseData. -/
def u32MAX : Nat := 4294967295

/-- Embeds the while loop of parseData (m4a.rs lines 314-342) over the
already-read payload bytes: walks the data sub-atoms at increasing
offsets, validates their names, and collects the (flags, payload) pairs
whose flags match.  Rust slice indexing out of range is a panic; the
payload slice buf[offset+16..offset+length] is evaluated only when the
pair is pushed, and it aborts when length is below 16 or runs past the
end of the buffer.  The fuel argument only carries termination: every
iteration advances offset by at least 12, so the loop runs at most
buf.length / 12 + 1 times and the fuel of buf.length + 1 passed by the
caller is never exhausted (the fuel-0 branch is dead code). -/
def parseData_loop (buf : List Nat) (expected_flags : Nat) (free_form : Bool) :
    Nat → Nat → Nat → MRes (List (Nat × List Nat))
  | 0, _, _ => MRes.panic
  | fuel + 1, offset, iter =>
  if offset < buf.length then
    if offset + 12 ≤ buf.length then
      let length := read_u32 (seg buf offset (offset + 4))
      if length < 12 then MRes.err ("Mp4 atom is too short")
      else
        let name := m4a.from_ascii (seg buf (offset + 4) (offset + 8))
        let flags := read_u32 (seg buf (offset + 8) (offset + 12))
        let check : MRes Unit :=
          if free_form = true ∧ iter < 2 then
            if iter = 0 ∧ name ≠ "mean".toList then
              MRes.err ("Unexpected atom: Expected `mean`")
            else if iter = 1 ∧ name ≠ "name".toList then
              MRes.err ("Unexpected atom: Expected `name`")
            else MRes.ok ()
          else if name ≠ "data".toList then
            MRes.err ("Unexpected atom: Expected `data`")
          else MRes.ok ()
        match check with
        | MRes.err e => MRes.err e
        | MRes.panic => MRes.panic
        | MRes.ok _ =>
          let push : MRes (List (Nat × List Nat)) :=
            if expected_flags = u32MAX ∨ flags = expected_flags then
              if 16 ≤ length ∧ offset + length ≤ buf.length then
                MRes.ok [(flags, seg buf (offset + 16) (offset + length))]
              else MRes.panic
            else MRes.ok []
          match push with
          | MRes.err e => MRes.err e
          | MRes.panic => MRes.panic
          | MRes.ok pushed =>
            match parseData_loop buf expected_flags free_form fuel (offset + length) (iter + 1) with
            | MRes.err e => MRes.err e
            | MRes.panic => MRes.panic
            | MRes.ok rest => MRes.ok (pushed ++ rest)
    else MRes.panic
  else MRes.ok []

/-- Embeds parseGenre (m4a.rs lines 253-265) on the payload bytes of the
gnre atom (the bytes parseData reads at m4a.rs line 307).  The genre
list is a parameter: the meta module carrying the static GENRE_LIST is
not under src/, and the spec describes it only as a static 1-indexed
ordered sequence of genre names.  The source lookup
GENRE_LIST.get(index - 1).unwrap() aborts for index 0 (the usize
subtraction overflows in debug builds; in release builds it wraps, get
returns None and the unwrap aborts) and for any index beyond the list
length (get returns None, the unwrap aborts). -/
def parseGenre (genres : List String) (bytes : List Nat) : MRes TagData :=
  match parseData_loop bytes u32MAX false (bytes.length + 1) 0 0 with
  | MRes.err e => MRes.err e
  | MRes.panic => MRes.panic
  | MRes.ok buf =>
    if buf.isEmpty then MRes.ok TagData.Empty
    else
      let payload := (buf.headD (0, [])).2
      if payload.length < 2 then MRes.panic
      else
        match read_u16 payload with
        | 0 => MRes.panic
        | i + 1 =>
          match genres.get? i with
          | some g => MRes.ok (TagData.Str g)
          | none => MRes.panic

/-- Embeds fs::File::read_exact on a file modelled as its byte list and
a cursor: returns the n bytes at pos, or fails when fewer remain. -/
def readExact (file : List Nat) (pos n : Nat) : Option (List Nat) :=
  if pos + n ≤ file.length then some (seg file pos (pos + n)) else none

/-- Embeds the header-reading prefix of read_atom (m4a.rs lines 102-118):
the 8-byte header read, the reread of the next 8 bytes into the same
buffer when the length field is 1 (lines 109-112), the minimum-size
check, and the name taken from bytes 4..8 of the buffer as it stands
after those reads.  The rest of read_atom (extra skips, child recursion
and the final seek) does not affect the length and name returned here. -/
def read_atom_header (file : List Nat) (pos : Nat) : MRes (Nat × List Char) :=
  match readExact file pos 8 with
  | none => MRes.err ("read_exact: failed to fill whole buffer")
  | some buf0 =>
    let len0 := read_u32 buf0
    match (if len0 = 1 then readExact file (pos + 8) 8 else some buf0) with
    | none => MRes.err ("read_exact: failed to fill whole buffer")
    | some buf =>
      let length := read_u32 buf
      if length < 8 then MRes.err ("Mp4: Invalid Atom Size")
      else MRes.ok (length, m4a.from_ascii (buf.drop 4))

/-- Map of an M4A Tag: the HashMap from atom name to TagData as an
association list. -/
abbrev M4aTag : Type := List (String × TagData)

/-- First-match lookup in an M4A tag map (HashMap::get). -/
def tlookup (k : String) : M4aTag → Option TagData
  | [] => none
  | p :: rest => if p.1 = k then some p.2 else tlookup k rest

/-- Embeds Tag::title for M4A (m4a.rs lines 348-357).  The assert on
line 350 compares the copyright sign cast to u8 against 169 (the cast
keeps the low 8 bits); a failed assert would abort, hence the MRes
wrapper. -/
def M4aTag.title (t : M4aTag) : MRes (Option String) :=
  if '©'.toNat % 256 = 169 then
    MRes.ok (match tlookup ("©nam") t with
             | some (TagData.Str s) => some s
             | _ => none)
  else MRes.panic

/-- Embeds Tag::comment for M4A (m4a.rs lines 379-385), which reads the
key of the title atom. -/
def M4aTag.comment (t : M4aTag) : Option String :=
  match tlookup ("©nam") t with
  | some (TagData.Str s) => some s
  | _ => none

/-- Claim C8 (failing): with a length field of 1, read_atom takes the
atom length from only the first four bytes of the 64-bit extended-size
field and the atom name from its last four bytes, because the reread
overwrites the original header buffer.  First input: extended size 16,
rejected as an invalid atom size (the high half is 0).  Second input:
the returned name comes from the extended-size bytes, not from the moov
header. -/
theorem m4a_read_atom_extended_length :
    read_atom_header
        [0, 0, 0, 1, 0x6d, 0x6f, 0x6f, 0x76, 0, 0, 0, 0, 0, 0, 0, 16] 0
      = MRes.err ("Mp4: Invalid Atom Size") ∧
    read_atom_header
        [0, 0, 0, 1, 0x6d, 0x6f, 0x6f, 0x76, 0, 0, 0, 9, 0x78, 0x79, 0x7a, 0x77] 0
      = MRes.ok (9, "xyzw".toList) := by
  constructor <;> rfl

/-- Claim C10: the M4A comment accessor returns exactly what the title
accessor returns (the assert in title always passes), and both are the
Str contents at the single key of the title atom, None in every other
case. -/
theorem m4a_title_comment_agree :
    (∀ t : M4aTag, M4aTag.title t = MRes.ok (M4aTag.comment t)) ∧
    (∀ t : M4aTag,
      M4aTag.comment t
        = match tlookup ("©nam") t with
          | some (TagData.Str s) => some s
          | _ => none) := by
  constructor
  · intro t
    unfold M4aTag.title M4aTag.comment
    rw [if_pos (by decide)]
  · intro t
    rfl

/-- Claim C3 (failing): in the gnre decoder an index of 1 does map to the
first GENRE_LIST entry, but an index of 0 or an index beyond the list
length makes parseGenre abort through the unchecked unwrap of the list
lookup instead of returning a Malformed error to the caller.  The three
inputs hold one complete data sub-atom (length 18, name data, flags 0,
reserved word) whose payload is the big-endian index 0, 2 and 1 against
the one-entry genre list. -/
theorem m4a_parseGenre_lookup_aborts :
    parseGenre ["Blues"]
        [0, 0, 0, 18, 0x64, 0x61, 0x74, 0x61, 0, 0, 0, 0, 0, 0, 0, 0, 0, 0]
      = MRes.panic ∧
    parseGenre ["Blues"]
        [0, 0, 0, 18, 0x64, 0x61, 0x74, 0x61, 0, 0, 0, 0, 0, 0, 0, 0, 0, 2]
      = MRes.panic ∧
    parseGenre ["Blues"]
        [0, 0, 0, 18, 0x64, 0x61, 0x74, 0x61, 0, 0, 0, 0, 0, 0, 0, 0, 0, 1]
      = MRes.ok (TagData.Str "Blues") := by
  refine ⟨?_, ?_, ?_⟩ <;> rfl
